import Mathlib

/-!
Verification development for the django-modeltranslation repository.

The definitions below are a shallow embedding of the source files
src/modeltranslation/fields.py and src/modeltranslation/translator.py.
Python values are modelled by an explicit type with Python truthiness,
instance dictionaries and Django meta-field tables by association lists,
and each embedded function mirrors one Python function of the source,
statement by statement.  Parts of the repository that are not present in
the provided sources (the settings module, the utils helpers and the
query-rewriting manager) are modelled from the specification document and
marked as such in their doc comments.
-/

set_option autoImplicit false

namespace ModelTranslation

/-- A Python value as far as the translated-field machinery observes it:
either the Python None singleton or a string.  All translated field kinds
in the claims carry string payloads. -/
inductive PyVal where
  | none
  | str (s : String)
deriving DecidableEq, Repr

/-- Python truthiness for the values above: None and the empty string are
falsy, every other string is truthy.  Mirrors the implicit bool coercion
in the if-statements of fields.py. -/
def PyVal.truthy : PyVal → Bool
  | PyVal.none => false
  | PyVal.str s => !(s == "")

/-- An association list playing the role of a Python dict.  Reads use
List.lookup (first binding wins); alSet below keeps keys unique, so the
list always describes a function, exactly like a dict. -/
abbrev AList (κ α : Type) := List (κ × α)

/-- Write one key of a Python dict: replace the first existing binding of
the key, or append a fresh binding when the key is absent. -/
def alSet {κ α : Type} [DecidableEq κ] : AList κ α → κ → α → AList κ α
  | [], k, v => [(k, v)]
  | (k', v') :: rest, k, v =>
      if k' == k then (k, v) :: rest else (k', v') :: alSet rest k v

/-- Python dict.update: fold every binding of the second dict into the
first, overwriting bindings whose key is already present. -/
def alUpdate {κ α : Type} [DecidableEq κ] (d newPairs : AList κ α) : AList κ α :=
  newPairs.foldl (fun acc p => alSet acc p.1 p.2) d

/-- A model-instance dictionary (instance dunder-dict): logical slots and
per-language shadow slots, all keyed by attribute name. -/
abbrev PyDict := AList String PyVal

/-- Modelled from the spec: utils.build_localized_fieldname is not under
src/; spec section 4.1 fixes the deterministic name of a shadow slot as
the logical name followed by an underscore and the language code. -/
def build_localized_fieldname (name lang : String) : String :=
  name ++ "_" ++ lang

/-- Embedding of fields.TranslationDescriptor: the data descriptor that
is installed on the model class for the original (logical) attribute.  It
remembers the wrapped field name and the configured fallback value (the
Python None value meaning that no fallback is configured). -/
structure TranslationDescriptor where
  fieldName : String
  fallback_value : PyVal
deriving DecidableEq, Repr

/-- Embedding of TranslationDescriptor.set (fields.py lines 153-163)
with the ambient current language passed explicitly: write the value into
the shadow slot of the current language via setattr, then mirror the same
value into the instance dict entry of the original field name (the write
at line 163, bypassing the descriptor). -/
def descSet (d : TranslationDescriptor) (lang : String) (value : PyVal)
    (inst : PyDict) : PyDict :=
  let loc := build_localized_fieldname d.fieldName lang
  alSet (alSet inst loc value) d.fieldName value

/-- Embedding of TranslationDescriptor.get (fields.py lines 165-179)
with the ambient current language passed explicitly.  The result some v
is a returned value (the implicit Python None return included, when the
instance has no shadow attribute for the current language); the result
Option.none models the KeyError of reading a missing original entry of
the instance dict on the no-fallback branch.  Attribute existence and
reads of the plain shadow fields go through the instance dict, which is
where Django stores plain field values. -/
def descGet (d : TranslationDescriptor) (lang : String)
    (inst : PyDict) : Option PyVal :=
  let loc := build_localized_fieldname d.fieldName lang
  match inst.lookup loc with
  | Option.none => some PyVal.none
  | some v =>
      if v.truthy then some v
      else if d.fallback_value = PyVal.none then inst.lookup d.fieldName
      else some d.fallback_value

/-- State observed by the save lifecycle hooks: the ambient language
context (an external collaborator, read through get_language and written
through translation.activate) together with the private attribute the
pre-save hook stores on the instance being saved. -/
structure SaveCtx where
  currentLang : String
  instSavedLang : Option String
deriving DecidableEq, Repr

/-- Embedding of pre_save_fix_handler (translator.py lines 246-251):
remember the currently active language on the instance, then pin the
language context to the configured default language. -/
def pre_save_fix_handler (defaultLang : String) (s : SaveCtx) : SaveCtx :=
  { instSavedLang := some s.currentLang, currentLang := defaultLang }

/-- Embedding of post_save_fix_handler (translator.py lines 273-275):
activate the language remembered on the instance; reading the attribute
on an instance that never went through the pre-save hook raises. -/
def post_save_fix_handler (s : SaveCtx) : Except String SaveCtx :=
  match s.instSavedLang with
  | some l => Except.ok { s with currentLang := l }
  | Option.none => Except.error "AttributeError"

/-- Modelled from the spec: the persistence engine driving the two
handlers is an external collaborator exposed only through its pre-save
and post-save subscription points (spec sections 4.4 and 6).  A save
delivers the pre-save event, runs the delegated persistence step, and
delivers the post-save event only when that step completed without
raising; a raising step propagates its error to the caller. -/
def modelSave (defaultLang : String) (step : Except String Unit)
    (s : SaveCtx) : SaveCtx × Except String Unit :=
  let s1 := pre_save_fix_handler defaultLang s
  match step with
  | Except.error e => (s1, Except.error e)
  | Except.ok _ =>
      match post_save_fix_handler s1 with
      | Except.ok s2 => (s2, Except.ok ())
      | Except.error e => (s1, Except.error e)

/-- The Django field classes the registration machinery distinguishes.
URLField and EmailField are subclasses of CharField, IntegerField stands
for any field class outside SUPPORTED_FIELDS, and custom covers classes
whitelisted by name through MODELTRANSLATION_CUSTOM_FIELDS. -/
inductive FieldKind where
  | char
  | text
  | url
  | email
  | file
  | image
  | integer
  | custom (cls : String)
deriving DecidableEq, Repr

/-- The value of field-class dunder-name used by the CUSTOM_FIELDS check
and by the ImproperlyConfigured message of create_translation_field. -/
def FieldKind.className : FieldKind → String
  | FieldKind.char => "CharField"
  | FieldKind.text => "TextField"
  | FieldKind.url => "URLField"
  | FieldKind.email => "EmailField"
  | FieldKind.file => "FileField"
  | FieldKind.image => "ImageField"
  | FieldKind.integer => "IntegerField"
  | FieldKind.custom cls => cls

/-- The isinstance check of fields.py line 32 against SUPPORTED_FIELDS =
(CharField, TextField, FileField, ImageField): URLField and EmailField
pass because they subclass CharField. -/
def FieldKind.isSupportedBase : FieldKind → Bool
  | FieldKind.char => true
  | FieldKind.text => true
  | FieldKind.url => true
  | FieldKind.email => true
  | FieldKind.file => true
  | FieldKind.image => true
  | FieldKind.integer => false
  | FieldKind.custom _ => false

/-- Whether Django's Field.contribute_to_class installs a class-level
attribute for a field of this kind (FileField and ImageField install
their descriptor_class); plain fields keep values only in the instance
dict, so they contribute no class attribute for hasattr to see. -/
def FieldKind.hasDescriptorAttr : FieldKind → Bool
  | FieldKind.file => true
  | FieldKind.image => true
  | _ => false

/-- A Django model field as the registration machinery observes it: its
attribute name and its class.  The clone performed by TranslationField
(null and blank forced to True, verbose name suffixed) does not affect
any claim and is not tracked beyond name and class. -/
structure PyField where
  name : String
  kind : FieldKind
deriving DecidableEq, Repr

/-- A model class: its object name, its immediate concrete parents as
Django meta-parents lists them (multi-table inheritance links only), the
meta field table, and the names that resolve as class attributes (used by
the hasattr collision check of add_localized_fields). -/
structure ModelDecl where
  objectName : String
  parents : List Nat
  metaFields : List PyField
  classAttrs : List String
deriving DecidableEq, Repr

/-- The fallback_values attribute of a TranslationOptions class: absent,
a single value applied to every field, or a per-field mapping
(translator.py lines 165-174). -/
inductive FallbackSpec where
  | absent
  | single (v : PyVal)
  | perField (m : AList String PyVal)
deriving DecidableEq, Repr

/-- Embedding of translator.py lines 167-174: the fallback value handed
to the descriptor of one field. -/
def fieldFallbackValue : FallbackSpec → String → PyVal
  | FallbackSpec.absent, _ => PyVal.none
  | FallbackSpec.single v, _ => v
  | FallbackSpec.perField m, f => (m.lookup f).getD PyVal.none

/-- Embedding of a TranslationOptions class: the declared translatable
field names, the declared fallback values, and the two derived name
mappings populated during registration. -/
structure TransOpts where
  fields : List String
  fallback_values : FallbackSpec
  localized_fieldnames : AList String (List String)
  localized_fieldnames_rev : AList String String
deriving DecidableEq, Repr

/-- Which descriptor register installs on the logical attribute
(translator.py lines 176-188): the file and image descriptors for
file-backed fields, else TranslationDescriptor with the field's fallback
value. -/
inductive InstalledDesc where
  | plain (fallback : PyVal)
  | file
  | image
deriving DecidableEq, Repr

/-- The mutable world the Translator singleton acts on: its registry,
the model classes (mutated by add_to_class), the models whose pre-save
and post-save signals are connected, and the descriptors installed on
logical attributes. -/
structure MTWorld where
  registry : AList Nat TransOpts
  models : AList Nat ModelDecl
  signalModels : List Nat
  descriptors : AList (Nat × String) InstalledDesc
deriving DecidableEq, Repr

/-- The meta-parents list of a model (immediate concrete parents). -/
def MTWorld.modelParents (w : MTWorld) (mid : Nat) : List Nat :=
  ((w.models.lookup mid).map ModelDecl.parents).getD []

/-- The hasattr check of add_localized_fields line 58, resolved against
the model class attributes. -/
def hasattrModel (w : MTWorld) (mid : Nat) (attr : String) : Bool :=
  match w.models.lookup mid with
  | some m => m.classAttrs.contains attr
  | Option.none => false

/-- Django meta get_field by name. -/
def getMetaField (w : MTWorld) (mid : Nat) (fieldName : String) : Option PyField :=
  match w.models.lookup mid with
  | some m => m.metaFields.find? (fun f => f.name == fieldName)
  | Option.none => Option.none

/-- Django add_to_class for a synthesized translation field: append the
field to the meta field table; file and image fields additionally install
their descriptor as a class attribute. -/
def addToClass (w : MTWorld) (mid : Nat) (f : PyField) : MTWorld :=
  match w.models.lookup mid with
  | some m =>
      let m2 : ModelDecl :=
        { m with
          metaFields := m.metaFields ++ [f],
          classAttrs :=
            if f.kind.hasDescriptorAttr then m.classAttrs ++ [f.name]
            else m.classAttrs }
      { w with models := alSet w.models mid m2 }
  | Option.none => w

/-- The errors of the registration machinery.  improperlyConfigured is
the UnsupportedFieldKind error of the spec (ImproperlyConfigured in
fields.py line 34), duplicateField the ValueError of translator.py line
59, and the registry errors match the exception classes of
translator.py. -/
inductive RegErr where
  | alreadyRegistered
  | notRegistered
  | fieldDoesNotExist (fieldName : String)
  | improperlyConfigured (cls : String)
  | duplicateField (fieldName : String)
deriving DecidableEq, Repr

/-- Embedding of fields.create_translation_field (fields.py lines
17-37): look the original field up in the model meta, reject a class
that is neither a SUPPORTED_FIELDS subclass nor whitelisted by name in
CUSTOM_FIELDS, else produce the localized clone. -/
def create_translation_field (customFields : List String) (w : MTWorld)
    (mid : Nat) (fieldName lang : String) : Except RegErr PyField :=
  match getMetaField w mid fieldName with
  | Option.none => Except.error (RegErr.fieldDoesNotExist fieldName)
  | some f =>
      if f.kind.isSupportedBase || customFields.contains f.kind.className then
        Except.ok { name := build_localized_fieldname fieldName lang,
                    kind := f.kind }
      else
        Except.error (RegErr.improperlyConfigured f.kind.className)

/-- The inner loop of add_localized_fields (translator.py lines 51-66)
for one translatable field: per configured language, synthesize the
translation field, check for a name collision, and add it to the class.
The world returned on an error carries every class mutation performed
before the raise. -/
def addLocalizedLangs (customFields : List String) (mid : Nat)
    (fieldName : String) (langs : List String) (w : MTWorld) :
    MTWorld × Except RegErr (List String) :=
  match langs with
  | [] => (w, Except.ok [])
  | l :: rest =>
      match create_translation_field customFields w mid fieldName l with
      | Except.error e => (w, Except.error e)
      | Except.ok tf =>
          let locName := build_localized_fieldname fieldName l
          if hasattrModel w mid locName then
            (w, Except.error (RegErr.duplicateField locName))
          else
            let w1 := addToClass w mid tf
            match addLocalizedLangs customFields mid fieldName rest w1 with
            | (w2, Except.error e) => (w2, Except.error e)
            | (w2, Except.ok names) => (w2, Except.ok (locName :: names))

/-- The outer loop of add_localized_fields (translator.py lines 49-66)
over the translatable field names, accumulating the localized-fields
mapping. -/
def addLocalizedFieldsLoop (customFields langs : List String) (mid : Nat)
    (fieldNames : List String) (w : MTWorld) :
    MTWorld × Except RegErr (AList String (List String)) :=
  match fieldNames with
  | [] => (w, Except.ok [])
  | f :: rest =>
      match addLocalizedLangs customFields mid f langs w with
      | (w1, Except.error e) => (w1, Except.error e)
      | (w1, Except.ok names) =>
          match addLocalizedFieldsLoop customFields langs mid rest w1 with
          | (w2, Except.error e) => (w2, Except.error e)
          | (w2, Except.ok m) => (w2, Except.ok ((f, names) :: m))

/-- Python set.update on a list holding set contents: insert the new
elements that are not already present. -/
def setUnion (base newElems : List String) : List String :=
  match newElems with
  | [] => base
  | x :: rest =>
      if x ∈ base then setUnion base rest
      else setUnion (base ++ [x]) rest

/-- The parent-merging loop of get_options_for_model (translator.py
lines 222-229): walk the meta-parents in order and fold every registered
parent's fields and name mappings into the accumulator with set.update
and dict.update semantics. -/
def mergeRegisteredParents (w : MTWorld) (parents : List Nat)
    (acc : List String × AList String (List String) × AList String String) :
    List String × AList String (List String) × AList String String :=
  match parents with
  | [] => acc
  | p :: rest =>
      match w.registry.lookup p with
      | some opts =>
          mergeRegisteredParents w rest
            (setUnion acc.1 opts.fields,
             alUpdate acc.2.1 opts.localized_fieldnames,
             alUpdate acc.2.2 opts.localized_fieldnames_rev)
      | Option.none => mergeRegisteredParents w rest acc

/-- Embedding of Translator.get_options_for_model (translator.py lines
207-243).  A registered model returns its stored options; otherwise the
immediate meta-parents are merged and, when all three collected pieces
are non-empty, a fresh ephemeral options object is synthesized without
touching the registry; otherwise NotRegistered is raised.  The second
component returns the world to make the frame effect of the query
explicit: the method only reads the translator state. -/
def get_options_for_model (w : MTWorld) (mid : Nat) :
    Except RegErr TransOpts × MTWorld :=
  match w.registry.lookup mid with
  | some opts => (Except.ok opts, w)
  | Option.none =>
      match mergeRegisteredParents w (w.modelParents mid) ([], [], []) with
      | (fs, lf, lfr) =>
          if fs ≠ [] ∧ lf ≠ [] ∧ lfr ≠ [] then
            (Except.ok
              { fields := fs,
                fallback_values := FallbackSpec.absent,
                localized_fieldnames := lf,
                localized_fieldnames_rev := lfr }, w)
          else
            (Except.error RegErr.notRegistered, w)

/-- Embedding of translator.add_localized_fields (translator.py lines
38-68): fetch the options of the model through the translator (at the
call site inside register the model is already stored in the registry)
and run the synthesis loop. -/
def add_localized_fields (customFields langs : List String) (w : MTWorld)
    (mid : Nat) : MTWorld × Except RegErr (AList String (List String)) :=
  match (get_options_for_model w mid).1 with
  | Except.error e => (w, Except.error e)
  | Except.ok opts => addLocalizedFieldsLoop customFields langs mid opts.fields w

/-- Embedding of translator.py lines 152-159: the reverse mapping from
localized field name to original field name. -/
def buildRevDict (lf : AList String (List String)) : AList String String :=
  lf.foldl (fun acc p => p.2.foldl (fun acc2 ln => alSet acc2 ln p.1) acc) []

/-- Embedding of translator.py lines 165-188: install one descriptor per
translatable field on the model class, keeping the file and image
descriptors for file-backed fields.  The field lookup cannot fail here
because add_localized_fields succeeded on the same field list just
before; a missing field is skipped. -/
def installDescriptors (w : MTWorld) (mid : Nat) (fb : FallbackSpec)
    (fieldNames : List String) : MTWorld :=
  match fieldNames with
  | [] => w
  | f :: rest =>
      match getMetaField w mid f with
      | Option.none => installDescriptors w mid fb rest
      | some fld =>
          let desc :=
            match fld.kind with
            | FieldKind.file => InstalledDesc.file
            | FieldKind.image => InstalledDesc.image
            | _ => InstalledDesc.plain (fieldFallbackValue fb f)
          let w1 :=
            { w with
              descriptors := alSet w.descriptors (mid, f) desc,
              models :=
                match w.models.lookup mid with
                | some m =>
                    alSet w.models mid
                      { m with
                        classAttrs :=
                          if m.classAttrs.contains f then m.classAttrs
                          else m.classAttrs ++ [f] }
                | Option.none => w.models }
          installDescriptors w1 mid fb rest

/-- Embedding of Translator.register (translator.py lines 113-191) for a
single model: reject a model already present, connect the save signals,
store the options in the registry, synthesize the localized fields (an
error from the synthesis propagates while every mutation done so far,
the registry entry included, persists), then populate the two derived
name mappings on the stored options and install the descriptors.  The
dynamic options subclassing for keyword options and the field-cache
invalidation of related models are not observable by any claim and are
not modelled. -/
def registerModel (customFields langs : List String) (w : MTWorld)
    (mid : Nat) (transOpts : TransOpts) : MTWorld × Option RegErr :=
  if (w.registry.lookup mid).isSome then
    (w, some RegErr.alreadyRegistered)
  else
    match add_localized_fields customFields langs
        { w with
          signalModels := w.signalModels ++ [mid],
          registry := w.registry ++ [(mid, transOpts)] } mid with
    | (w3, Except.error e) => (w3, some e)
    | (w3, Except.ok lf) =>
        (installDescriptors
          { w3 with
            registry := alSet w3.registry mid
              { transOpts with
                localized_fieldnames := lf,
                localized_fieldnames_rev := buildRevDict lf } }
          mid transOpts.fallback_values transOpts.fields,
         Option.none)

/-- Modelled from the spec: the query-rewriting manager of this
repository is not under src/ (only its tests are).  An update assignment
value is either a literal or a raw expression object referencing another
field plus a numeric delta (the F-expression of the tests, evaluated by
the storage engine on string numbers). -/
inductive UpdateVal where
  | lit (v : PyVal)
  | rawExpr (srcField : String) (delta : Nat)
deriving DecidableEq, Repr

/-- Decimal value of a digit character. -/
def digitVal (c : Char) : Nat := c.toNat - 48

/-- Decimal reading of a character list, accumulator style. -/
def strToNatAux : List Char → Nat → Nat
  | [], acc => acc
  | c :: rest, acc => strToNatAux rest (acc * 10 + digitVal c)

/-- Modelled from the spec: the storage engine's numeric coercion used by
the raw-expression scenario of spec section 8 (string number plus integer
delta yields a string number). -/
def addToStrNumber (v : PyVal) (delta : Nat) : PyVal :=
  match v with
  | PyVal.str s => PyVal.str (toString (strToNatAux s.data 0 + delta))
  | PyVal.none => PyVal.str (toString delta)

/-- Modelled from the spec: the physical storage slot a logical name
denotes under a language (spec glossary: the default language's physical
slot doubles as the legacy, unsuffixed storage location). -/
def physicalFieldName (defaultLang lang fieldName : String) : String :=
  if lang == defaultLang then fieldName
  else build_localized_fieldname fieldName lang

/-- Modelled from the spec: the bulk-update path of the Query Rewriter
(spec section 4.5), the manager source being absent from src/.  A
literal-value assignment to a logical field is rewritten to the physical
field of the current language; an assignment from a raw expression object
is not rewritten: it lands on the slot named by the key as written, and
its operand reads the slot it names as written. -/
def rewriteUpdate (defaultLang lang : String) (row : PyDict)
    (key : String) (val : UpdateVal) : PyDict :=
  match val with
  | UpdateVal.lit v => alSet row (physicalFieldName defaultLang lang key) v
  | UpdateVal.rawExpr src delta =>
      alSet row key (addToStrNumber ((row.lookup src).getD PyVal.none) delta)

/-!
Concrete configurations used to evaluate the theorems below, shaped
after the fixtures of the repository's test suite.
-/

/-- Fixture: stored options of a registered model translating titlea
under the languages de and en. -/
def optsMultitableA : TransOpts :=
  { fields := ["titlea"],
    fallback_values := FallbackSpec.absent,
    localized_fieldnames := [("titlea", ["titlea_de", "titlea_en"])],
    localized_fieldnames_rev := [("titlea_de", "titlea"), ("titlea_en", "titlea")] }

/-- Fixture: a three-level concrete inheritance chain, model 3 inheriting
model 2 inheriting model 1, where only the grandparent (model 1) is
registered. -/
def worldGrandparent : MTWorld :=
  { registry := [(1, optsMultitableA)],
    models :=
      [(1, { objectName := "MultitableModelA", parents := [],
             metaFields := [{ name := "titlea", kind := FieldKind.char }],
             classAttrs := [] }),
       (2, { objectName := "MultitableModelB", parents := [1],
             metaFields := [{ name := "titleb", kind := FieldKind.char }],
             classAttrs := [] }),
       (3, { objectName := "MultitableModelC", parents := [2],
             metaFields := [{ name := "titlec", kind := FieldKind.char }],
             classAttrs := [] })],
    signalModels := [1],
    descriptors := [] }

/-- Fixture: stored options of the first-registered parent, mapping
title to its two localized field names. -/
def optsParentP : TransOpts :=
  { fields := ["title"],
    fallback_values := FallbackSpec.absent,
    localized_fieldnames := [("title", ["title_de", "title_en"])],
    localized_fieldnames_rev := [("title_de", "title"), ("title_en", "title")] }

/-- Fixture: stored options of the second-registered parent, mapping the
same key title to a different localized field list. -/
def optsParentQ : TransOpts :=
  { fields := ["title"],
    fallback_values := FallbackSpec.absent,
    localized_fieldnames := [("title", ["title_x"])],
    localized_fieldnames_rev := [("title_x", "title")] }

/-- Fixture: a child (model 12) of two registered parents; parent 10 is
first both in the child's parent list and in registration order, and
both parents contribute an entry for the key title. -/
def worldTwoParents : MTWorld :=
  { registry := [(10, optsParentP), (11, optsParentQ)],
    models :=
      [(10, { objectName := "ParentP", parents := [],
              metaFields := [{ name := "title", kind := FieldKind.char }],
              classAttrs := [] }),
       (11, { objectName := "ParentQ", parents := [],
              metaFields := [{ name := "title", kind := FieldKind.char }],
              classAttrs := [] }),
       (12, { objectName := "Child", parents := [10, 11],
              metaFields := [], classAttrs := [] })],
    signalModels := [10, 11],
    descriptors := [] }

/-- Fixture: a model declaring a supported title field followed by an
unsupported integer field. -/
def worldUnsupported : MTWorld :=
  { registry := [],
    models :=
      [(1, { objectName := "TestModel", parents := [],
             metaFields := [{ name := "title", kind := FieldKind.char },
                            { name := "data", kind := FieldKind.integer }],
             classAttrs := [] })],
    signalModels := [],
    descriptors := [] }

/-- Fixture: a registration request naming the supported title field and
then the unsupported data field. -/
def optsUnsupported : TransOpts :=
  { fields := ["title", "data"],
    fallback_values := FallbackSpec.absent,
    localized_fieldnames := [],
    localized_fieldnames_rev := [] }

/-!
Helper lemmas about the dictionary operations and the localized name
builder, shared by the claim theorems below.
-/

@[simp]
theorem alGet_alSet_self {κ α : Type} [DecidableEq κ] (d : AList κ α)
    (k : κ) (v : α) : (alSet d k v).lookup k = some v := by
  induction d with
  | nil => simp [alSet, List.lookup]
  | cons hd tl ih =>
      by_cases h : hd.1 = k
      · simp [alSet, h, List.lookup]
      · have hb : (hd.1 == k) = false := by simpa [beq_iff_eq] using h
        have hb2 : (k == hd.1) = false := by
          simpa [beq_iff_eq] using Ne.symm h
        simp [alSet, hb, List.lookup, hb2, ih]

theorem alGet_alSet_ne {κ α : Type} [DecidableEq κ] (d : AList κ α)
    (k k' : κ) (v : α) (h : k ≠ k') :
    (alSet d k v).lookup k' = d.lookup k' := by
  have hb : (k' == k) = false := by simpa [beq_iff_eq] using Ne.symm h
  induction d with
  | nil => simp [alSet, List.lookup, hb]
  | cons hd tl ih =>
      by_cases hk : hd.1 = k
      · simp [alSet, hk, List.lookup, hb]
      · have hbk : (hd.1 == k) = false := by simpa [beq_iff_eq] using hk
        cases hq : (k' == hd.1) <;> simp [alSet, hbk, List.lookup, hq, ih]

theorem build_localized_fieldname_ne_name (name lang : String) :
    build_localized_fieldname name lang ≠ name := by
  intro h
  have hlen := congrArg String.length h
  simp only [build_localized_fieldname, String.length_append] at hlen
  have h1 : ("_" : String).length = 1 := rfl
  rw [h1] at hlen
  omega

theorem build_localized_fieldname_lang_inj (name l l' : String)
    (h : build_localized_fieldname name l = build_localized_fieldname name l') :
    l = l' := by
  unfold build_localized_fieldname at h
  have hd := congrArg String.data h
  simp only [String.data_append] at hd
  have h1 := List.append_cancel_left hd
  exact String.ext h1

/-!
Claims about the attribute indirection layer (TranslationDescriptor).
-/

/-- C1, counterexample.  The claim states that a write through the
logical attribute name under a non-default active language leaves the
default-language slot, the instance's original underlying storage slot,
unchanged.  The source (fields.py line 163) mirrors every write into that
slot: with default language de and active language en, writing neu over
an instance whose original slot holds alt overwrites the original slot
with neu. -/
theorem c1_counterexample :
    (descSet { fieldName := "title", fallback_value := PyVal.none } "en"
        (PyVal.str "neu")
        [("title", PyVal.str "alt"), ("title_de", PyVal.str "alt"),
         ("title_en", PyVal.str "old")]).lookup "title"
      = some (PyVal.str "neu")
    ∧ PyVal.str "neu" ≠ PyVal.str "alt" := by
  constructor
  · rfl
  · decide

/-- C1, amended.  Writing v through the logical attribute name while the
active language L differs from the default language stores v into the
shadow slot for L and additionally mirrors v into the instance's original
underlying storage slot (the same-instance read side-channel); the shadow
slot of the default language is left unchanged by the write. -/
theorem c1_write_targets_shadow_slot (d : TranslationDescriptor)
    (defaultLang lang : String) (v : PyVal) (inst : PyDict)
    (h : lang ≠ defaultLang) :
    (descSet d lang v inst).lookup (build_localized_fieldname d.fieldName lang)
        = some v
    ∧ (descSet d lang v inst).lookup d.fieldName = some v
    ∧ (descSet d lang v inst).lookup (build_localized_fieldname d.fieldName defaultLang)
        = inst.lookup (build_localized_fieldname d.fieldName defaultLang) := by
  have hne : d.fieldName ≠ build_localized_fieldname d.fieldName lang :=
    fun hx => build_localized_fieldname_ne_name d.fieldName lang hx.symm
  have hll : build_localized_fieldname d.fieldName lang
      ≠ build_localized_fieldname d.fieldName defaultLang :=
    fun hx => h (build_localized_fieldname_lang_inj d.fieldName lang defaultLang hx)
  have hnd : d.fieldName ≠ build_localized_fieldname d.fieldName defaultLang :=
    fun hx => build_localized_fieldname_ne_name d.fieldName defaultLang hx.symm
  refine ⟨?_, ?_, ?_⟩
  · rw [descSet, alGet_alSet_ne _ _ _ _ hne, alGet_alSet_self]
  · rw [descSet, alGet_alSet_self]
  · rw [descSet, alGet_alSet_ne _ _ _ _ hnd, alGet_alSet_ne _ _ _ _ hll]

/-- C1 witness: the amended write contract evaluated at a concrete
instance with default language de and active language en. -/
theorem c1_write_targets_shadow_slot_witness :
    (descSet { fieldName := "title", fallback_value := PyVal.none } "en"
        (PyVal.str "neu")
        [("title", PyVal.str "alt"), ("title_de", PyVal.str "da")]).lookup "title_en"
        = some (PyVal.str "neu")
    ∧ (descSet { fieldName := "title", fallback_value := PyVal.none } "en"
        (PyVal.str "neu")
        [("title", PyVal.str "alt"), ("title_de", PyVal.str "da")]).lookup "title"
        = some (PyVal.str "neu")
    ∧ (descSet { fieldName := "title", fallback_value := PyVal.none } "en"
        (PyVal.str "neu")
        [("title", PyVal.str "alt"), ("title_de", PyVal.str "da")]).lookup "title_de"
        = [("title", PyVal.str "alt"), ("title_de", PyVal.str "da")].lookup "title_de" :=
  c1_write_targets_shadow_slot
    { fieldName := "title", fallback_value := PyVal.none } "de" "en"
    (PyVal.str "neu")
    [("title", PyVal.str "alt"), ("title_de", PyVal.str "da")]
    (by decide)

/-- Shared reading lemma for the descriptor: with the shadow slot of the
active language present and the original slot present, the read returns
the shadow value when truthy, else the configured fallback value, else
the original slot's value.  This is fields.py lines 171-179 verbatim. -/
theorem descGet_chain (d : TranslationDescriptor) (lang : String)
    (inst : PyDict) (sv dv : PyVal)
    (hshadow : inst.lookup (build_localized_fieldname d.fieldName lang) = some sv)
    (horig : inst.lookup d.fieldName = some dv) :
    (sv.truthy = true → descGet d lang inst = some sv)
    ∧ (sv.truthy = false → d.fallback_value ≠ PyVal.none →
        descGet d lang inst = some d.fallback_value)
    ∧ (sv.truthy = false → d.fallback_value = PyVal.none →
        descGet d lang inst = some dv) := by
  refine ⟨?_, ?_, ?_⟩
  · intro ht
    simp [descGet, hshadow, ht]
  · intro ht hf
    simp [descGet, hshadow, ht, hf]
  · intro ht hf
    simp [descGet, hshadow, ht, hf, horig]

/-- C4.  Reading a translatable attribute while the active language L is
not the default language returns the shadow slot's value when that slot
holds a non-empty value; when it is empty, the configured fallback value
when one is configured; otherwise the default-language slot's value (the
instance's original underlying storage slot). -/
theorem c4_nondefault_read_fallback (d : TranslationDescriptor)
    (defaultLang lang : String) (inst : PyDict) (sv dv : PyVal)
    (_hlang : lang ≠ defaultLang)
    (hshadow : inst.lookup (build_localized_fieldname d.fieldName lang) = some sv)
    (horig : inst.lookup d.fieldName = some dv) :
    (sv.truthy = true → descGet d lang inst = some sv)
    ∧ (sv.truthy = false → d.fallback_value ≠ PyVal.none →
        descGet d lang inst = some d.fallback_value)
    ∧ (sv.truthy = false → d.fallback_value = PyVal.none →
        descGet d lang inst = some dv) :=
  descGet_chain d lang inst sv dv hshadow horig

/-- C4 witness: under default language de and active language en, a
non-empty en shadow slot is returned as-is even though a fallback value
is configured. -/
theorem c4_nondefault_read_fallback_witness :
    descGet { fieldName := "title", fallback_value := PyVal.str "fb" } "en"
        [("title", PyVal.str "orig"), ("title_en", PyVal.str "T")]
      = some (PyVal.str "T") :=
  (c4_nondefault_read_fallback
    { fieldName := "title", fallback_value := PyVal.str "fb" } "de" "en"
    [("title", PyVal.str "orig"), ("title_en", PyVal.str "T")]
    (PyVal.str "T") (PyVal.str "orig")
    (by decide) (by rfl) (by rfl)).1 (by decide)

/-- C5, counterexample.  The claim states that reading under the default
language returns the original underlying storage slot directly,
regardless of any configured fallback value or shadow-slot contents.  In
the source (fields.py lines 171-179) the default language takes the same
path as every other language: with default language de active, an empty
de shadow slot and a configured fallback fb, the read returns fb, not the
original slot's value orig. -/
theorem c5_counterexample :
    descGet { fieldName := "title", fallback_value := PyVal.str "fb" } "de"
        [("title_de", PyVal.str ""), ("title", PyVal.str "orig")]
      = some (PyVal.str "fb")
    ∧ PyVal.str "fb" ≠ PyVal.str "orig" := by
  exact ⟨rfl, by decide⟩

/-- C5, amended.  Reading while the active language equals the default
language follows the same lookup path as any other language: it returns
the default language's shadow slot value when that slot is non-empty,
else the configured fallback value when one is configured, else the
original underlying storage slot's value. -/
theorem c5_default_read_same_chain (d : TranslationDescriptor)
    (defaultLang : String) (inst : PyDict) (sv dv : PyVal)
    (hshadow : inst.lookup (build_localized_fieldname d.fieldName defaultLang)
        = some sv)
    (horig : inst.lookup d.fieldName = some dv) :
    (sv.truthy = true → descGet d defaultLang inst = some sv)
    ∧ (sv.truthy = false → d.fallback_value ≠ PyVal.none →
        descGet d defaultLang inst = some d.fallback_value)
    ∧ (sv.truthy = false → d.fallback_value = PyVal.none →
        descGet d defaultLang inst = some dv) :=
  descGet_chain d defaultLang inst sv dv hshadow horig

/-- C5 witness: with no fallback configured and an empty default-language
shadow slot, the default-language read returns the original slot's
value. -/
theorem c5_default_read_same_chain_witness :
    descGet { fieldName := "title", fallback_value := PyVal.none } "de"
        [("title_de", PyVal.str ""), ("title", PyVal.str "orig")]
      = some (PyVal.str "orig") :=
  (c5_default_read_same_chain
    { fieldName := "title", fallback_value := PyVal.none } "de"
    [("title_de", PyVal.str ""), ("title", PyVal.str "orig")]
    (PyVal.str "") (PyVal.str "orig")
    (by rfl) (by rfl)).2.2 (by decide) (by rfl)

/-- C9.  When the instance has no shadow attribute for the active
language, the read returns the Python None value: the hasattr guard of
fields.py line 173 has no else branch, so neither the fallback value nor
the original slot is consulted and nothing is raised. -/
theorem c9_missing_shadow_returns_none (d : TranslationDescriptor)
    (lang : String) (inst : PyDict)
    (h : inst.lookup (build_localized_fieldname d.fieldName lang)
        = Option.none) :
    descGet d lang inst = some PyVal.none := by
  simp [descGet, h]

/-- C9 witness: reading under a language without a synthesized shadow
field returns None even though the original slot is populated and a
fallback value is configured. -/
theorem c9_missing_shadow_returns_none_witness :
    descGet { fieldName := "title", fallback_value := PyVal.str "fb" } "fr"
        [("title", PyVal.str "orig"), ("title_de", PyVal.str "da")]
      = some PyVal.none :=
  c9_missing_shadow_returns_none
    { fieldName := "title", fallback_value := PyVal.str "fb" } "fr"
    [("title", PyVal.str "orig"), ("title_de", PyVal.str "da")]
    (by rfl)

/-!
Claims about the save lifecycle hooks.
-/

/-- C2, counterexample.  The claim states that a failing persistence
step still restores the previously active language before control
returns.  The hooks are plain pre-save and post-save signal handlers
(translator.py lines 246-275) and the post-save event is not delivered
when the persistence step raises: saving under active language en with a
failing step leaves the context pinned to the default language de while
the error propagates. -/
theorem c2_counterexample :
    ((modelSave "de" (Except.error "integrity error")
        { currentLang := "en", instSavedLang := Option.none }).1.currentLang
      = "de")
    ∧ ("de" : String) ≠ "en"
    ∧ ((modelSave "de" (Except.error "integrity error")
        { currentLang := "en", instSavedLang := Option.none }).2
      = Except.error "integrity error") :=
  ⟨rfl, by decide, rfl⟩

/-- C2, amended.  The pre-save hook pins the language context to the
default language; the prior language is restored by the post-save hook,
which runs only when the delegated persistence step completes: on a
successful save the prior language is active again when control returns,
while a failing save propagates the failure with the context still
pinned to the default language. -/
theorem c2_restore_only_on_success (defaultLang : String) (s : SaveCtx)
    (e : String) :
    ((modelSave defaultLang (Except.ok ()) s).1.currentLang = s.currentLang)
    ∧ ((modelSave defaultLang (Except.error e) s).1.currentLang = defaultLang)
    ∧ ((modelSave defaultLang (Except.error e) s).2 = Except.error e) :=
  ⟨rfl, rfl, rfl⟩

/-!
Claim about the query-rewriter update path (spec-modelled).
-/

/-- C3.  With default language de, a row whose default slot for title
holds 2 and whose en shadow slot holds 1: the raw-expression update
adding 10 to title under active language de is not rewritten, so it
lands on the default slot (now 12) and leaves the en slot at 1; a
literal-value update to the same logical field is language-aware,
landing on the en slot under active language en and on the default slot
under active language de, each time leaving the other slot unchanged. -/
theorem c3_raw_expression_update_asymmetry :
    ((rewriteUpdate "de" "de"
        [("title", PyVal.str "2"), ("title_en", PyVal.str "1")]
        "title" (UpdateVal.rawExpr "title" 10)).lookup "title"
      = some (PyVal.str "12"))
    ∧ ((rewriteUpdate "de" "de"
        [("title", PyVal.str "2"), ("title_en", PyVal.str "1")]
        "title" (UpdateVal.rawExpr "title" 10)).lookup "title_en"
      = some (PyVal.str "1"))
    ∧ ((rewriteUpdate "de" "en"
        [("title", PyVal.str "2"), ("title_en", PyVal.str "1")]
        "title" (UpdateVal.lit (PyVal.str "x"))).lookup "title_en"
      = some (PyVal.str "x"))
    ∧ ((rewriteUpdate "de" "en"
        [("title", PyVal.str "2"), ("title_en", PyVal.str "1")]
        "title" (UpdateVal.lit (PyVal.str "x"))).lookup "title"
      = some (PyVal.str "2"))
    ∧ ((rewriteUpdate "de" "de"
        [("title", PyVal.str "2"), ("title_en", PyVal.str "1")]
        "title" (UpdateVal.lit (PyVal.str "x"))).lookup "title"
      = some (PyVal.str "x"))
    ∧ ((rewriteUpdate "de" "de"
        [("title", PyVal.str "2"), ("title_en", PyVal.str "1")]
        "title" (UpdateVal.lit (PyVal.str "x"))).lookup "title_en"
      = some (PyVal.str "1")) :=
  ⟨rfl, rfl, rfl, rfl, rfl, rfl⟩

/-!
Helper lemmas about the registration machinery, shared by the claims on
the translator.
-/

theorem lookup_append_right {κ α : Type} [DecidableEq κ]
    (l1 l2 : List (κ × α)) (k : κ) (h : l1.lookup k = Option.none) :
    (l1 ++ l2).lookup k = l2.lookup k := by
  induction l1 with
  | nil => rfl
  | cons hd tl ih =>
      cases hq : (k == hd.1) with
      | true => simp [List.lookup, hq] at h
      | false =>
          simp only [List.lookup, hq] at h
          rw [List.cons_append]
          simp only [List.lookup, hq]
          exact ih h

theorem addToClass_registry (w : MTWorld) (mid : Nat) (f : PyField) :
    (addToClass w mid f).registry = w.registry := by
  unfold addToClass
  cases w.models.lookup mid <;> rfl

theorem addLocalizedLangs_registry (customFields : List String) (mid : Nat)
    (fieldName : String) (langs : List String) (w : MTWorld) :
    (addLocalizedLangs customFields mid fieldName langs w).1.registry
      = w.registry := by
  induction langs generalizing w with
  | nil => rfl
  | cons l rest ih =>
      simp only [addLocalizedLangs]
      split
      next e heq => rfl
      next tf heq =>
        split
        next hh => rfl
        next hh =>
          split
          next w2 e heq2 =>
              show w2.registry = w.registry
              have h2 := ih (addToClass w mid tf)
              rw [heq2] at h2
              rw [h2, addToClass_registry]
          next w2 names heq2 =>
              show w2.registry = w.registry
              have h2 := ih (addToClass w mid tf)
              rw [heq2] at h2
              rw [h2, addToClass_registry]

theorem addLocalizedFieldsLoop_registry (customFields langs : List String)
    (mid : Nat) (fieldNames : List String) (w : MTWorld) :
    (addLocalizedFieldsLoop customFields langs mid fieldNames w).1.registry
      = w.registry := by
  induction fieldNames generalizing w with
  | nil => rfl
  | cons f rest ih =>
      simp only [addLocalizedFieldsLoop]
      split
      next w1 e heq =>
          have h1 := addLocalizedLangs_registry customFields mid f langs w
          rw [heq] at h1
          exact h1
      next w1 names heq =>
          have h1 := addLocalizedLangs_registry customFields mid f langs w
          rw [heq] at h1
          split
          next w2 e2 heq2 =>
              have h2 := ih w1
              rw [heq2] at h2
              rw [h2, h1]
          next w2 m2 heq2 =>
              have h2 := ih w1
              rw [heq2] at h2
              rw [h2, h1]

theorem get_options_for_model_frame (w : MTWorld) (mid : Nat) :
    (get_options_for_model w mid).2 = w := by
  unfold get_options_for_model
  split
  · rfl
  · split
    split <;> rfl

theorem mem_setUnion (base newElems : List String) (x : String) :
    x ∈ setUnion base newElems ↔ x ∈ base ∨ x ∈ newElems := by
  induction newElems generalizing base with
  | nil => simp [setUnion]
  | cons y rest ih =>
      simp only [setUnion]
      split
      next hc =>
          rw [ih]
          simp only [List.mem_cons]
          constructor
          · rintro (h | h)
            · exact Or.inl h
            · exact Or.inr (Or.inr h)
          · rintro (h | h | h)
            · exact Or.inl h
            · exact Or.inl (by rw [h]; exact hc)
            · exact Or.inr h
      next hc =>
          rw [ih]
          simp [List.mem_append, List.mem_cons]
          tauto

theorem setUnion_ne_nil (base newElems : List String)
    (h : base ≠ [] ∨ newElems ≠ []) : setUnion base newElems ≠ [] := by
  induction newElems generalizing base with
  | nil =>
      simp only [setUnion]
      rcases h with h | h
      · exact h
      · exact absurd rfl h
  | cons y rest ih =>
      simp only [setUnion]
      split
      next hc =>
        refine ih base (Or.inl ?_)
        intro hb
        subst hb
        simp at hc
      next hc =>
        exact ih (base ++ [y]) (Or.inl (by simp))

theorem alSet_ne_nil {κ α : Type} [DecidableEq κ] (d : AList κ α)
    (k : κ) (v : α) : alSet d k v ≠ [] := by
  cases d with
  | nil => simp [alSet]
  | cons hd tl =>
      simp only [alSet]
      split <;> simp

theorem alUpdate_ne_nil {κ α : Type} [DecidableEq κ] (d newPairs : AList κ α)
    (h : d ≠ [] ∨ newPairs ≠ []) : alUpdate d newPairs ≠ [] := by
  induction newPairs generalizing d with
  | nil =>
      rcases h with h | h
      · exact h
      · exact absurd rfl h
  | cons p rest ih =>
      show alUpdate (alSet d p.1 p.2) rest ≠ []
      exact ih (alSet d p.1 p.2) (Or.inl (alSet_ne_nil d p.1 p.2))

theorem lookup_alUpdate_of_not_mem {κ α : Type} [DecidableEq κ]
    (d newPairs : AList κ α) (k : κ)
    (h : ∀ p ∈ newPairs, p.1 ≠ k) :
    (alUpdate d newPairs).lookup k = d.lookup k := by
  induction newPairs generalizing d with
  | nil => rfl
  | cons p rest ih =>
      show (alUpdate (alSet d p.1 p.2) rest).lookup k = d.lookup k
      rw [ih (alSet d p.1 p.2) (fun q hq => h q (List.mem_cons_of_mem p hq))]
      exact alGet_alSet_ne d p.1 k p.2 (h p (List.mem_cons_self p rest))

theorem lookup_alUpdate_of_mem {κ α : Type} [DecidableEq κ]
    (d newPairs : AList κ α) (k : κ) (v : α)
    (hnodup : (newPairs.map Prod.fst).Nodup)
    (h : newPairs.lookup k = some v) :
    (alUpdate d newPairs).lookup k = some v := by
  induction newPairs generalizing d with
  | nil => simp [List.lookup] at h
  | cons p rest ih =>
      show (alUpdate (alSet d p.1 p.2) rest).lookup k = some v
      cases hq : (k == p.1) with
      | true =>
          have hk : k = p.1 := by simpa [beq_iff_eq] using hq
          have hv : v = p.2 := by
            simp [List.lookup, hq] at h
            exact h.symm
          have hnot : ∀ q ∈ rest, q.1 ≠ k := by
            intro q hqmem hqk
            simp only [List.map_cons, List.nodup_cons] at hnodup
            apply hnodup.1
            rw [← hk, ← hqk]
            exact List.mem_map_of_mem Prod.fst hqmem
          rw [lookup_alUpdate_of_not_mem _ _ _ hnot, hk, hv]
          exact alGet_alSet_self d p.1 p.2
      | false =>
          have hrest : rest.lookup k = some v := by
            simpa [List.lookup, hq] using h
          simp only [List.map_cons, List.nodup_cons] at hnodup
          exact ih (alSet d p.1 p.2) hnodup.2 hrest

theorem mergeRegisteredParents_all_unregistered (w : MTWorld)
    (parents : List Nat)
    (acc : List String × AList String (List String) × AList String String)
    (h : ∀ p ∈ parents, w.registry.lookup p = Option.none) :
    mergeRegisteredParents w parents acc = acc := by
  induction parents with
  | nil => rfl
  | cons p rest ih =>
      rw [mergeRegisteredParents, h p (List.mem_cons_self p rest)]
      exact ih (fun q hq => h q (List.mem_cons_of_mem p hq))

/-!
Claims about the options registry lookup and registration.
-/

/-- C6, counterexample.  The claim states that the supertype search of
get_options_for_model covers multiple inheritance levels and that on a
key collision the first-registered parent's entry wins.  The source
iterates only the immediate meta-parents (translator.py line 222), so a
registered grandparent behind an unregistered parent is not found; and
the merge uses dict.update (lines 226-229), so the entry of the parent
processed last overwrites the entry of the first-registered parent. -/
theorem c6_counterexample :
    ((get_options_for_model worldGrandparent 3).1
      = Except.error RegErr.notRegistered)
    ∧ ((get_options_for_model worldTwoParents 12).1.map
        (fun o => o.localized_fieldnames.lookup "title")
      = Except.ok (some ["title_x"]))
    ∧ (optsParentP.localized_fieldnames.lookup "title"
      = some ["title_de", "title_en"])
    ∧ (["title_x"] : List String) ≠ ["title_de", "title_en"] := by
  refine ⟨rfl, rfl, rfl, by decide⟩

/-- C6, amended.  When get_options_for_model is called on an
unregistered model, the search covers only the model's immediate
parents: if no immediate parent is registered the lookup raises
NotRegistered even when a deeper supertype is registered.  When two
registered immediate parents contribute a mapping entry for the same
key, the entry of the parent appearing last in the model's parent list
wins in the merged ephemeral options. -/
theorem c6_parent_merge_semantics :
    (∀ (w : MTWorld) (mid : Nat),
      w.registry.lookup mid = Option.none →
      (∀ p ∈ w.modelParents mid, w.registry.lookup p = Option.none) →
      (get_options_for_model w mid).1 = Except.error RegErr.notRegistered)
    ∧ (∀ (w : MTWorld) (mid p q : Nat) (op oq : TransOpts) (k : String)
        (vq : List String),
        w.registry.lookup mid = Option.none →
        w.modelParents mid = [p, q] →
        w.registry.lookup p = some op →
        w.registry.lookup q = some oq →
        (oq.localized_fieldnames.map Prod.fst).Nodup →
        oq.localized_fieldnames.lookup k = some vq →
        op.fields ≠ [] →
        (op.localized_fieldnames_rev ≠ [] ∨ oq.localized_fieldnames_rev ≠ []) →
        ∃ o, (get_options_for_model w mid).1 = Except.ok o
          ∧ o.localized_fieldnames.lookup k = some vq) := by
  constructor
  · intro w mid hmid hpar
    have hmerge := mergeRegisteredParents_all_unregistered w
      (w.modelParents mid) ([], [], []) hpar
    simp only [get_options_for_model, hmid, hmerge]
    rw [if_neg]
    intro hcon
    exact hcon.1 rfl
  · intro w mid p q op oq k vq hmid hpar hp hq hnodup hlk hopf hrev
    have hmerge : mergeRegisteredParents w (w.modelParents mid) ([], [], [])
        = (setUnion (setUnion [] op.fields) oq.fields,
           alUpdate (alUpdate [] op.localized_fieldnames)
             oq.localized_fieldnames,
           alUpdate (alUpdate [] op.localized_fieldnames_rev)
             oq.localized_fieldnames_rev) := by
      rw [hpar]
      simp only [mergeRegisteredParents, hp, hq]
    have hoqlf : oq.localized_fieldnames ≠ [] := by
      intro hnil
      rw [hnil] at hlk
      simp [List.lookup] at hlk
    have hfs : setUnion (setUnion [] op.fields) oq.fields ≠ [] :=
      setUnion_ne_nil _ _ (Or.inl (setUnion_ne_nil _ _ (Or.inr hopf)))
    have hlf : alUpdate (alUpdate [] op.localized_fieldnames)
        oq.localized_fieldnames ≠ [] :=
      alUpdate_ne_nil _ _ (Or.inr hoqlf)
    have hlfr : alUpdate (alUpdate [] op.localized_fieldnames_rev)
        oq.localized_fieldnames_rev ≠ [] := by
      rcases hrev with h | h
      · exact alUpdate_ne_nil _ _ (Or.inl (alUpdate_ne_nil _ _ (Or.inr h)))
      · exact alUpdate_ne_nil _ _ (Or.inr h)
    refine ⟨{ fields := setUnion (setUnion [] op.fields) oq.fields,
              fallback_values := FallbackSpec.absent,
              localized_fieldnames :=
                alUpdate (alUpdate [] op.localized_fieldnames)
                  oq.localized_fieldnames,
              localized_fieldnames_rev :=
                alUpdate (alUpdate [] op.localized_fieldnames_rev)
                  oq.localized_fieldnames_rev }, ?_, ?_⟩
    · simp only [get_options_for_model, hmid, hmerge]
      rw [if_pos ⟨hfs, hlf, hlfr⟩]
    · exact lookup_alUpdate_of_mem _ _ _ _ hnodup hlk

/-- C6 witness: the amended semantics evaluated on the two concrete
configurations (grandparent-only registration and a two-parent key
collision). -/
theorem c6_parent_merge_semantics_witness :
    ((get_options_for_model worldGrandparent 3).1
      = Except.error RegErr.notRegistered)
    ∧ (∃ o, (get_options_for_model worldTwoParents 12).1 = Except.ok o
        ∧ o.localized_fieldnames.lookup "title" = some ["title_x"]) :=
  ⟨c6_parent_merge_semantics.1 worldGrandparent 3 (by rfl)
      (by
        intro p hp
        have hps : worldGrandparent.modelParents 3 = [2] := rfl
        rw [hps] at hp
        have h2 : p = 2 := by simpa using hp
        rw [h2]
        rfl),
   c6_parent_merge_semantics.2 worldTwoParents 12 10 11 optsParentP
      optsParentQ "title" ["title_x"] (by rfl) (by rfl) (by rfl)
      (by rfl) (by decide) (by rfl) (by decide)
      (Or.inr (by decide))⟩

/-- C7.  A subtype that is not itself registered, whose single immediate
supertype is registered with attribute a translatable, reports a as
translatable when queried, and the query returns the translator state
unchanged. -/
theorem c7_inherited_options_no_mutation (w : MTWorld) (mid p : Nat)
    (op : TransOpts) (a : String)
    (hmid : w.registry.lookup mid = Option.none)
    (hpar : w.modelParents mid = [p])
    (hp : w.registry.lookup p = some op)
    (ha : a ∈ op.fields)
    (hlf : op.localized_fieldnames ≠ [])
    (hrev : op.localized_fieldnames_rev ≠ []) :
    (∃ o, (get_options_for_model w mid).1 = Except.ok o ∧ a ∈ o.fields)
    ∧ (get_options_for_model w mid).2 = w := by
  have hmerge : mergeRegisteredParents w (w.modelParents mid) ([], [], [])
      = (setUnion [] op.fields, alUpdate [] op.localized_fieldnames,
         alUpdate [] op.localized_fieldnames_rev) := by
    rw [hpar]
    simp only [mergeRegisteredParents, hp]
  have hopf : op.fields ≠ [] := by
    intro hnil
    rw [hnil] at ha
    simp at ha
  have hfs : setUnion [] op.fields ≠ [] := setUnion_ne_nil _ _ (Or.inr hopf)
  have hlf2 : alUpdate [] op.localized_fieldnames ≠ [] :=
    alUpdate_ne_nil _ _ (Or.inr hlf)
  have hrev2 : alUpdate [] op.localized_fieldnames_rev ≠ [] :=
    alUpdate_ne_nil _ _ (Or.inr hrev)
  constructor
  · refine ⟨{ fields := setUnion [] op.fields,
              fallback_values := FallbackSpec.absent,
              localized_fieldnames := alUpdate [] op.localized_fieldnames,
              localized_fieldnames_rev :=
                alUpdate [] op.localized_fieldnames_rev }, ?_, ?_⟩
    · simp only [get_options_for_model, hmid, hmerge]
      rw [if_pos ⟨hfs, hlf2, hrev2⟩]
    · exact (mem_setUnion [] op.fields a).mpr (Or.inr ha)
  · exact get_options_for_model_frame w mid

/-- C7 witness: the direct subtype (model 2) of the registered model 1
inherits titlea as translatable and the query leaves the world
unchanged. -/
theorem c7_inherited_options_no_mutation_witness :
    (∃ o, (get_options_for_model worldGrandparent 2).1 = Except.ok o
      ∧ "titlea" ∈ o.fields)
    ∧ (get_options_for_model worldGrandparent 2).2 = worldGrandparent :=
  c7_inherited_options_no_mutation worldGrandparent 2 1 optsMultitableA
    "titlea" (by rfl) (by rfl) (by rfl) (by decide) (by decide)
    (by decide)

/-- The synthesis loop splits over an append: once the leading fields
have been processed successfully, processing the whole list continues
from the reached world. -/
theorem addLocalizedFieldsLoop_append (customFields langs : List String)
    (mid : Nat) (xs ys : List String) (w w1 : MTWorld)
    (m1 : AList String (List String))
    (h : addLocalizedFieldsLoop customFields langs mid xs w
      = (w1, Except.ok m1)) :
    addLocalizedFieldsLoop customFields langs mid (xs ++ ys) w
      = (match addLocalizedFieldsLoop customFields langs mid ys w1 with
         | (w2, Except.error e) => (w2, Except.error e)
         | (w2, Except.ok m2) => (w2, Except.ok (m1 ++ m2))) := by
  induction xs generalizing w m1 with
  | nil =>
      simp only [addLocalizedFieldsLoop] at h
      injection h with h1 h2
      injection h2 with h3
      subst h1
      subst h3
      simp only [List.nil_append]
      cases hys : addLocalizedFieldsLoop customFields langs mid ys w with
      | mk w2 r => cases r <;> simp
  | cons f rest ih =>
      cases hL : addLocalizedLangs customFields mid f langs w with
      | mk wa r =>
        cases r with
        | error e =>
            simp only [addLocalizedFieldsLoop, hL] at h
            simp at h
        | ok names =>
            simp only [addLocalizedFieldsLoop, hL] at h
            cases hR : addLocalizedFieldsLoop customFields langs mid rest wa with
            | mk wb r2 =>
              rw [hR] at h
              cases r2 with
              | error e2 => simp at h
              | ok mrest =>
                  simp only [Prod.mk.injEq, Except.ok.injEq] at h
                  obtain ⟨h1, h3⟩ := h
                  subst h1
                  subst h3
                  rw [List.cons_append]
                  simp only [addLocalizedFieldsLoop, hL]
                  rw [ih wa mrest hR]
                  cases hY : addLocalizedFieldsLoop customFields langs mid ys wb with
                  | mk w2 r3 => cases r3 <;> simp [hY]

/-!
Claims C8 and C10 about registration failure behaviour.
-/

/-- C8, counterexample.  The claim states that a registration naming an
unsupported attribute raises before any shadow field is created.  The
synthesis loop processes the requested attributes in order (translator.py
lines 49-66), so registering title (supported) followed by data
(unsupported IntegerField) raises the unsupported-kind error only after
the shadow fields title_de and title_en have already been added to the
model class. -/
theorem c8_counterexample :
    ((registerModel [] ["de", "en"] worldUnsupported 1 optsUnsupported).2
      = some (RegErr.improperlyConfigured "IntegerField"))
    ∧ (((registerModel [] ["de", "en"] worldUnsupported 1
          optsUnsupported).1.models.lookup 1).map
        (fun m => m.metaFields.map PyField.name)
      = some ["title", "data", "title_de", "title_en"]) :=
  ⟨rfl, rfl⟩

/-- C8, amended.  A registration request naming an attribute whose field
kind is unsupported and not whitelisted raises the unsupported-kind
error at registration time, before any shadow field is created for that
attribute; shadow fields already synthesized for attributes listed
earlier in the same request remain in place (the resulting world is
exactly the world reached after the successful prefix). -/
theorem c8_unsupported_kind_raises (customFields : List String)
    (l : String) (restLangs : List String) (w : MTWorld) (mid : Nat)
    (opts : TransOpts) (pre post : List String) (bad : String)
    (w3 : MTWorld) (lfpre : AList String (List String)) (f : PyField)
    (hfields : opts.fields = pre ++ bad :: post)
    (hreg : w.registry.lookup mid = Option.none)
    (hpre : addLocalizedFieldsLoop customFields (l :: restLangs) mid pre
        { w with
          signalModels := w.signalModels ++ [mid],
          registry := w.registry ++ [(mid, opts)] }
      = (w3, Except.ok lfpre))
    (hf : getMetaField w3 mid bad = some f)
    (hunsup : f.kind.isSupportedBase = false)
    (hcustom : customFields.contains f.kind.className = false) :
    registerModel customFields (l :: restLangs) w mid opts
      = (w3, some (RegErr.improperlyConfigured f.kind.className)) := by
  have hw2 : ({ w with
      signalModels := w.signalModels ++ [mid],
      registry := w.registry ++ [(mid, opts)] } : MTWorld).registry.lookup mid
      = some opts := by
    show (w.registry ++ [(mid, opts)]).lookup mid = some opts
    rw [lookup_append_right _ _ _ hreg]
    simp [List.lookup]
  have hnotmem : f.kind.className ∉ customFields := by
    intro hmem
    have h2 : customFields.contains f.kind.className = true :=
      List.elem_eq_true_of_mem hmem
    rw [hcustom] at h2
    simp at h2
  have hbad : addLocalizedLangs customFields mid bad (l :: restLangs) w3
      = (w3, Except.error (RegErr.improperlyConfigured f.kind.className)) := by
    simp [addLocalizedLangs, create_translation_field, hf, hunsup, hnotmem]
  have hloopbad : addLocalizedFieldsLoop customFields (l :: restLangs) mid
      (bad :: post) w3
      = (w3, Except.error (RegErr.improperlyConfigured f.kind.className)) := by
    simp only [addLocalizedFieldsLoop, hbad]
  have hopt : (get_options_for_model
      { w with
        signalModels := w.signalModels ++ [mid],
        registry := w.registry ++ [(mid, opts)] } mid).1 = Except.ok opts := by
    simp only [get_options_for_model, hw2]
  rw [registerModel, hreg]
  rw [if_neg (show ¬((Option.none : Option TransOpts).isSome = true) by decide)]
  rw [add_localized_fields, hopt]
  dsimp only
  rw [hfields,
    addLocalizedFieldsLoop_append customFields (l :: restLangs) mid pre
      (bad :: post) _ w3 lfpre hpre, hloopbad]

/-- C8 witness: the amended statement evaluated on the concrete model
whose title field is supported and whose data field is an unsupported
IntegerField. -/
theorem c8_unsupported_kind_raises_witness :
    registerModel [] ["de", "en"] worldUnsupported 1 optsUnsupported
      = ((addLocalizedFieldsLoop [] ["de", "en"] 1 ["title"]
          { worldUnsupported with
            signalModels := worldUnsupported.signalModels ++ [1],
            registry := worldUnsupported.registry ++ [(1, optsUnsupported)] }).1,
         some (RegErr.improperlyConfigured "IntegerField")) :=
  c8_unsupported_kind_raises [] "de" ["en"] worldUnsupported 1
    optsUnsupported ["title"] [] "data"
    (addLocalizedFieldsLoop [] ["de", "en"] 1 ["title"]
      { worldUnsupported with
        signalModels := worldUnsupported.signalModels ++ [1],
        registry := worldUnsupported.registry ++ [(1, optsUnsupported)] }).1
    [("title", ["title_de", "title_en"])]
    { name := "data", kind := FieldKind.integer }
    (by rfl) (by rfl) (by rfl) (by rfl) (by rfl) (by rfl)

/-- C10.  register stores the registry entry before synthesizing any
shadow field (translator.py line 145 before line 150), so when the
synthesis fails the model stays registered: the failed registration
leaves the passed, still partially-initialized options in the registry,
a second register call for the same model reports AlreadyRegistered
without further changes, and get_options returns the partially
initialized options instead of raising NotRegistered. -/
theorem c10_registry_insert_before_synthesis (customFields langs : List String)
    (w : MTWorld) (mid : Nat) (opts opts2 : TransOpts) (w' : MTWorld)
    (e : RegErr)
    (hreg : w.registry.lookup mid = Option.none)
    (hrun : registerModel customFields langs w mid opts = (w', some e)) :
    w'.registry.lookup mid = some opts
    ∧ registerModel customFields langs w' mid opts2
      = (w', some RegErr.alreadyRegistered)
    ∧ (get_options_for_model w' mid).1 = Except.ok opts := by
  have hw2 : ({ w with
      signalModels := w.signalModels ++ [mid],
      registry := w.registry ++ [(mid, opts)] } : MTWorld).registry.lookup mid
      = some opts := by
    show (w.registry ++ [(mid, opts)]).lookup mid = some opts
    rw [lookup_append_right _ _ _ hreg]
    simp [List.lookup]
  have hopt : (get_options_for_model
      { w with
        signalModels := w.signalModels ++ [mid],
        registry := w.registry ++ [(mid, opts)] } mid).1 = Except.ok opts := by
    simp only [get_options_for_model, hw2]
  rw [registerModel, hreg] at hrun
  rw [if_neg (show ¬((Option.none : Option TransOpts).isSome = true) by decide)]
    at hrun
  rw [add_localized_fields, hopt] at hrun
  dsimp only at hrun
  cases hloop : addLocalizedFieldsLoop customFields langs mid opts.fields
      { w with
        signalModels := w.signalModels ++ [mid],
        registry := w.registry ++ [(mid, opts)] } with
  | mk w3 r =>
      rw [hloop] at hrun
      cases r with
      | ok lf => simp [Prod.ext_iff] at hrun
      | error e3 =>
          have hpair : w3 = w' ∧ (some e3 : Option RegErr) = some e := by
            simpa [Prod.ext_iff] using hrun
          obtain ⟨hw3, _⟩ := hpair
          have hw3reg : w'.registry = w.registry ++ [(mid, opts)] := by
            rw [← hw3]
            have hp := addLocalizedFieldsLoop_registry customFields langs mid
              opts.fields
              { w with
                signalModels := w.signalModels ++ [mid],
                registry := w.registry ++ [(mid, opts)] }
            rw [hloop] at hp
            exact hp
          have hlook : w'.registry.lookup mid = some opts := by
            rw [hw3reg, lookup_append_right _ _ _ hreg]
            simp [List.lookup]
          refine ⟨hlook, ?_, ?_⟩
          · rw [registerModel,
              if_pos (show (w'.registry.lookup mid).isSome = true by
                rw [hlook]; rfl)]
          · simp only [get_options_for_model, hlook]

/-- C10 witness: the failed concrete registration (unsupported second
field) leaves model 1 registered with the passed options, makes a second
registration report AlreadyRegistered, and get_options succeeds. -/
theorem c10_registry_insert_before_synthesis_witness :
    ((registerModel [] ["de", "en"] worldUnsupported 1
        optsUnsupported).1.registry.lookup 1 = some optsUnsupported)
    ∧ registerModel [] ["de", "en"]
        (registerModel [] ["de", "en"] worldUnsupported 1 optsUnsupported).1
        1 optsUnsupported
      = ((registerModel [] ["de", "en"] worldUnsupported 1
          optsUnsupported).1,
         some RegErr.alreadyRegistered)
    ∧ (get_options_for_model
        (registerModel [] ["de", "en"] worldUnsupported 1
          optsUnsupported).1 1).1 = Except.ok optsUnsupported :=
  c10_registry_insert_before_synthesis [] ["de", "en"] worldUnsupported 1
    optsUnsupported optsUnsupported
    (registerModel [] ["de", "en"] worldUnsupported 1 optsUnsupported).1
    (RegErr.improperlyConfigured "IntegerField") (by rfl) (by rfl)

end ModelTranslation
